import Mathlib

/-!
# Verification of the `downloader` repository's download engine

Shallow embedding of the core of the repository:

* `expand_wildcard_url` — the wildcard-range expander
  (`src/download_files.py` lines 50–71 and `src/gui/downloader.py`
  lines 15–27; the two copies are line-for-line the same algorithm).
* `download_single` — the per-file transfer unit of
  `src/gui/downloader.py::_download_single` (probe, decide, sidecar
  metadata, ranged fetch, cancellation, completion events).
* `download_files` — the orchestrator of
  `src/gui/downloader.py::download_files`.
* `download_file_cli` — the retry-wrapped fetch of
  `src/download_files.py::download_file`.
* `GateSys` — the operational model of the `asyncio.Semaphore`
  concurrency gate bounding simultaneous fetches.

Strings are modelled as `List Char`, file bytes as `List Nat`.
-/

namespace Downloader

/-! ## RangeExpander: `expand_wildcard_url` -/

/-- Match the regex `\{(\d+)\.\.(\d+)\}` at the head of `s`.
Both `\d+` are greedy and are followed by a non-digit (`.` resp. `}`),
so a match, when it exists, is the maximal digit runs; returns
`(startStr, endStr, rest-after-match)`. -/
def matchToken : List Char → Option (List Char × List Char × List Char)
  | [] => none
  | c :: rest =>
    if c = '{' then
      let d1 := rest.takeWhile Char.isDigit
      if d1.isEmpty then none
      else
        match rest.dropWhile Char.isDigit with
        | '.' :: '.' :: r2 =>
          let d2 := r2.takeWhile Char.isDigit
          if d2.isEmpty then none
          else
            match r2.dropWhile Char.isDigit with
            | '}' :: rest2 => some (d1, d2, rest2)
            | _ => none
        | _ => none
    else none

/-- `re.search`: scan left to right for the first position where
`matchToken` succeeds; returns `(prefixBefore, startStr, endStr, suffixAfter)`. -/
def searchToken : List Char → Option (List Char × List Char × List Char × List Char)
  | [] => none
  | c :: cs =>
    match matchToken (c :: cs) with
    | some (d1, d2, rest) => some ([], d1, d2, rest)
    | none =>
      match searchToken cs with
      | some (p, d1, d2, rest) => some (c :: p, d1, d2, rest)
      | none => none

/-- Python `int()` on a digit string (leading zeros allowed). -/
def digitsToNat (ds : List Char) : Nat :=
  ds.foldl (fun n c => 10 * n + (c.toNat - '0'.toNat)) 0

/-- Python `str.zfill`: left-pad with `'0'` up to width `w`
(a string already at least `w` long is unchanged). -/
def zfill (w : Nat) (s : List Char) : List Char :=
  List.replicate (w - s.length) '0' ++ s

/-- Python `str(i)` for a natural number. -/
def natStr (i : Nat) : List Char := (Nat.repr i).data

/-- `str(i).zfill(width) if width else str(i)` from the source. -/
def renderNum (width i : Nat) : List Char :=
  if width ≠ 0 then zfill width (natStr i) else natStr i

/-- The format width: `len(start_str) if start_str.startswith('0') and
len(start_str) > 1 else 0`. -/
def tokenWidth (d1 : List Char) : Nat :=
  if d1.head? = some '0' ∧ 1 < d1.length then d1.length else 0

/-- The two `ValueError`s raised by `expand_wildcard_url`, under the
spec's names: no `{a..b}` token (`InvalidTemplate`) and
start > end (`InvalidRange`). -/
inductive ExpandError
  | invalidTemplate
  | invalidRange
  deriving DecidableEq, Repr

/-- `expand_wildcard_url` from `src/download_files.py` lines 50–71
(identical in `src/gui/downloader.py` lines 15–27): find the first
`{digits..digits}` token, parse the two bounds, and produce one URL per
number in `[start, end]`, substituting the rendered number for the
token span. -/
def expand_wildcard_url (template : List Char) :
    Except ExpandError (List (List Char)) :=
  match searchToken template with
  | none => .error .invalidTemplate
  | some (p, d1, d2, q) =>
    let start := digitsToNat d1
    let stop := digitsToNat d2
    if start > stop then .error .invalidRange
    else
      let width := tokenWidth d1
      .ok ((List.range' start (stop - start + 1)).map
        fun i => p ++ renderNum width i ++ q)

example :
    expand_wildcard_url "http://example.com/file_\x7b1..3\x7d.csv".data =
      .ok ["http://example.com/file_1.csv".data,
           "http://example.com/file_2.csv".data,
           "http://example.com/file_3.csv".data] := rfl

example :
    expand_wildcard_url "https://data.org/img_\x7b001..003\x7d.png".data =
      .ok ["https://data.org/img_001.png".data,
           "https://data.org/img_002.png".data,
           "https://data.org/img_003.png".data] := rfl

example :
    expand_wildcard_url "http://x.com/\x7b5..3\x7d.bin".data =
      .error .invalidRange := rfl

example :
    expand_wildcard_url "http://x.com/file.csv".data =
      .error .invalidTemplate := rfl

/-! ### Lemmas about the token scanner -/

theorem matchToken_some {s d1 d2 rest : List Char}
    (h : matchToken s = some (d1, d2, rest)) :
    s = '{' :: (d1 ++ '.' :: '.' :: (d2 ++ '}' :: rest)) ∧
      d1 ≠ [] ∧ d2 ≠ [] ∧
      (∀ c ∈ d1, c.isDigit) ∧ (∀ c ∈ d2, c.isDigit) := by
  match s with
  | [] => simp [matchToken] at h
  | c :: cs =>
    simp only [matchToken] at h
    split at h
    case isFalse => exact absurd h (by simp)
    case isTrue hc =>
      subst hc
      split at h
      case isTrue => exact absurd h (by simp)
      case isFalse hne1 =>
        split at h
        case h_2 => exact absurd h (by simp)
        case h_1 r2 heq1 =>
          split at h
          case isTrue => exact absurd h (by simp)
          case isFalse hne2 =>
            split at h
            case h_2 => exact absurd h (by simp)
            case h_1 rest2 heq2 =>
              injection h with h
              injection h with h1 h
              injection h with h2 h3
              subst h1; subst h2; subst h3
              refine ⟨?_, ?_, ?_, ?_, ?_⟩
              · have hsplit1 : cs = cs.takeWhile Char.isDigit ++ '.' :: '.' :: r2 := by
                  rw [← heq1]
                  exact (List.takeWhile_append_dropWhile Char.isDigit cs).symm
                have hsplit2 : r2 = r2.takeWhile Char.isDigit ++ '}' :: rest2 := by
                  rw [← heq2]
                  exact (List.takeWhile_append_dropWhile Char.isDigit r2).symm
                conv_lhs => rw [hsplit1, hsplit2]
              · simpa [List.isEmpty_iff] using hne1
              · simpa [List.isEmpty_iff] using hne2
              · intro c hc
                exact List.mem_takeWhile_imp hc
              · intro c hc
                exact List.mem_takeWhile_imp hc

theorem searchToken_some :
    ∀ {s p d1 d2 q : List Char},
      searchToken s = some (p, d1, d2, q) →
      s = p ++ '{' :: (d1 ++ '.' :: '.' :: (d2 ++ '}' :: q)) ∧
        d1 ≠ [] ∧ d2 ≠ [] ∧
        (∀ c ∈ d1, c.isDigit) ∧ (∀ c ∈ d2, c.isDigit) := by
  intro s
  induction s with
  | nil => intro p d1 d2 q h; simp [searchToken] at h
  | cons c cs ih =>
    intro p d1 d2 q h
    simp only [searchToken] at h
    split at h
    case h_1 a b r heq =>
      injection h with h
      injection h with h1 h
      injection h with h2 h
      injection h with h3 h4
      subst h1; subst h2; subst h3; subst h4
      have := matchToken_some heq
      simpa using this
    case h_2 =>
      split at h
      case h_2 => exact absurd h (by simp)
      case h_1 p0 a b r heq =>
        injection h with h
        injection h with h1 h
        injection h with h2 h
        injection h with h3 h4
        subst h1; subst h2; subst h3; subst h4
        obtain ⟨hdec, hne1, hne2, hd1, hd2⟩ := ih heq
        exact ⟨by rw [List.cons_append, ← hdec], hne1, hne2, hd1, hd2⟩

theorem renderNum_tokenWidth (d1 : List Char) (i : Nat) :
    renderNum (tokenWidth d1) i =
      if d1.head? = some '0' ∧ 1 < d1.length
      then zfill d1.length (natStr i) else natStr i := by
  unfold renderNum tokenWidth
  by_cases hcond : d1.head? = some '0' ∧ 1 < d1.length
  · rw [if_pos hcond, if_pos hcond, if_pos (by omega)]
  · rw [if_neg hcond, if_neg hcond, if_neg (by omega)]

/-- **C3**. For every template whose (unique, hence leftmost) range token
decomposes it as `p ++ "\x7b" ++ d1 ++ ".." ++ d2 ++ "\x7d" ++ q` with
`start = int(d1) ≤ end = int(d2)`, `expand_wildcard_url` succeeds with
exactly `end - start + 1` URLs; the `k`-th URL (so the numeric tokens are
`start, start+1, …, end` in ascending order) is the template with the token
span replaced by the rendered number `start + k` and the surrounding text
`p`, `q` preserved exactly; the number is zero-padded to the start
literal's width exactly when that literal has a leading zero and length
 > 1, and rendered with no padding otherwise. -/
theorem expand_wildcard_url_range_spec
    (template p d1 d2 q : List Char)
    (hfind : searchToken template = some (p, d1, d2, q))
    (hle : digitsToNat d1 ≤ digitsToNat d2) :
    ∃ urls, expand_wildcard_url template = .ok urls ∧
      urls.length = digitsToNat d2 - digitsToNat d1 + 1 ∧
      template = p ++ '{' :: (d1 ++ '.' :: '.' :: (d2 ++ '}' :: q)) ∧
      ∀ k, (hk : k < urls.length) →
        urls[k] =
          p ++ (if d1.head? = some '0' ∧ 1 < d1.length
                then zfill d1.length (natStr (digitsToNat d1 + k))
                else natStr (digitsToNat d1 + k)) ++ q := by
  obtain ⟨hdec, -, -, -, -⟩ := searchToken_some hfind
  refine ⟨(List.range' (digitsToNat d1)
      (digitsToNat d2 - digitsToNat d1 + 1)).map
      (fun i => p ++ renderNum (tokenWidth d1) i ++ q), ?_, ?_, hdec, ?_⟩
  · unfold expand_wildcard_url
    rw [hfind]
    simp only
    rw [if_neg (by omega)]
  · simp
  · intro k hk
    have hk2 : k < (List.range' (digitsToNat d1)
        (digitsToNat d2 - digitsToNat d1 + 1)).length := by
      simpa using hk
    rw [List.getElem_map, List.getElem_range', renderNum_tokenWidth,
      Nat.one_mul]

/-- Witness for C3 at the template `http://e.com/file_\x7b1..3\x7d.csv`. -/
theorem expand_wildcard_url_range_spec_witness :
    searchToken "http://e.com/file_\x7b1..3\x7d.csv".data =
        some ("http://e.com/file_".data, ['1'], ['3'], ".csv".data) ∧
      digitsToNat ['1'] ≤ digitsToNat ['3'] ∧
      ∃ urls,
        expand_wildcard_url "http://e.com/file_\x7b1..3\x7d.csv".data =
            .ok urls ∧
          urls.length = digitsToNat ['3'] - digitsToNat ['1'] + 1 ∧
          "http://e.com/file_\x7b1..3\x7d.csv".data =
            "http://e.com/file_".data ++
              '{' :: (['1'] ++ '.' :: '.' :: (['3'] ++ '}' :: ".csv".data)) ∧
          ∀ k, (hk : k < urls.length) →
            urls[k] =
              "http://e.com/file_".data ++
                (if (['1'] : List Char).head? = some '0' ∧
                      1 < (['1'] : List Char).length
                 then zfill (['1'] : List Char).length
                        (natStr (digitsToNat ['1'] + k))
                 else natStr (digitsToNat ['1'] + k)) ++ ".csv".data :=
  ⟨rfl, by decide,
    expand_wildcard_url_range_spec
      "http://e.com/file_\x7b1..3\x7d.csv".data
      "http://e.com/file_".data ['1'] ['3'] ".csv".data rfl (by decide)⟩

/-! ## TransferUnit: `_download_single` from `src/gui/downloader.py`

The unit is a pure function of a `Scenario`: the local filesystem state
before the call and the network's behavior (probe outcome, content
response per requested Range, cancellation flag per poll).  File bytes
are `List Nat`; the body of a response is the chunk list produced by
`iter_chunked(chunk_size)`. -/

/-- Sidecar metadata content: `\x7b'server_size': …, 'url': …\x7d`. -/
structure Meta where
  serverSize : Option Nat
  url : List Char
  deriving Repr, DecidableEq

/-- Response to the HEAD probe, when no transport error occurs:
status, `content_length`, and whether
`'bytes' in headers.get('Accept-Ranges', '').lower()`. -/
structure HeadResp where
  status : Nat
  contentLength : Option Nat
  acceptRangesBytes : Bool
  deriving Repr, DecidableEq

/-- Response to the content GET, when no transport error occurs. If the
body stream dies mid-transfer, `chunks` are the chunks delivered before
the failure and `midStreamError` is true. -/
structure GetResp where
  status : Nat
  contentLength : Option Nat
  chunks : List (List Nat)
  midStreamError : Bool
  deriving Repr, DecidableEq

/-- Environment of one `_download_single` call. `get` maps the requested
Range offset (`none` = no Range header) to the response; `cancel i` is
the value of the `check_cancelled()` poll made before chunk `i` is
written. -/
structure Scenario where
  initFile : Option (List Nat)
  initMeta : Option Meta
  head : Except Unit HeadResp
  get : Option Nat → Except Unit GetResp
  cancel : Nat → Bool

/-- Completion messages of `_download_single` (`str(e)` abstracted). -/
inductive Msg
  | already
  | ok
  | cancelled
  | err
  deriving Repr, DecidableEq

/-- The callback events fired by the engine. -/
inductive Event
  | started (filename : List Char)
  | progress (filename : List Char) (done total : Nat)
  | complete (filename : List Char) (success : Bool) (msg : Msg)
  deriving Repr, DecidableEq

/-- File open modes used by `_download_single`: `'wb'` truncates,
`'ab'` appends. -/
inductive Mode
  | wb
  | ab
  deriving Repr, DecidableEq

/-- Observable filesystem / network operations, in program order. -/
inductive Op
  | opHead
  | opWriteMeta (m : Meta)
  | opGet (range : Option Nat)
  | opWrite (offset : Nat) (bytes : List Nat)
  | opUnlinkMeta
  deriving Repr, DecidableEq

/-- Terminal outcome of one unit. -/
inductive Outcome
  | success
  | already
  | failed
  | cancelled
  deriving Repr, DecidableEq

/-- Result of one `_download_single` call: final local file, final
sidecar, events fired, outcome, operation log. -/
structure UnitResult where
  file : Option (List Nat)
  meta : Option Meta
  events : List Event
  outcome : Outcome
  log : List Op
  deriving Repr, DecidableEq

/-- Python `local_size < server_size` with `server_size : int | None`.
In `_download_single` this comparison only runs with
`accepts_ranges = True`, which forces `server_size` to be an `int`;
the `none` case is unreachable there. -/
def pyLtOpt (a : Nat) : Option Nat → Bool
  | some b => decide (a < b)
  | none => false

/-- Python `local_size == server_size` with `server_size : int | None`:
an `int` never equals `None`. -/
def pyEqOpt (a : Nat) : Option Nat → Bool
  | some b => decide (a = b)
  | none => false

/-- Python `x or d` for `x : int | None` and `d : Nat` (both `None`
and `0` are falsy). -/
def orTruthy (o : Option Nat) (d : Nat) : Nat :=
  match o with
  | some n => if n = 0 then d else n
  | none => d

/-- Accumulator of the chunk-streaming loop. -/
structure StreamState where
  file : List Nat
  downloaded : Nat
  events : List Event
  log : List Op
  deriving Repr, DecidableEq

/-- The `async for chunk in resp.content.iter_chunked(...)` loop of
`_download_single` (lines 131–137): before writing chunk `i`, poll the
cancellation flag; if set, raise `DownloadCancelled` (second component
`true`); else append the chunk and fire
`on_progress(filename, downloaded, total or downloaded)`. -/
def streamChunks (filename : List Char) (cancel : Nat → Bool) (total : Nat) :
    List (List Nat) → Nat → StreamState → StreamState × Bool
  | [], _, st => (st, false)
  | c :: cs, i, st =>
    if cancel i then (st, true)
    else
      streamChunks filename cancel total cs (i + 1)
        { file := st.file ++ c
          downloaded := st.downloaded + c.length
          events := st.events ++
            [Event.progress filename (st.downloaded + c.length)
              (if total = 0 then st.downloaded + c.length else total)]
          log := st.log ++ [Op.opWrite st.file.length c] }

/-- The Range header of the content request (line 122):
`\x7b'Range': f'bytes=\x7bdownloaded\x7d-'\x7d if (accepts_ranges and
downloaded > 0) else \x7b\x7d`. -/
def fetchRange (acceptsRanges : Bool) (downloaded0 : Nat) : Option Nat :=
  if acceptsRanges ∧ downloaded0 > 0 then some downloaded0 else none

/-- What `aiofiles.open(filepath, mode)` leaves in the handle's view:
`'ab'` starts from the existing bytes, `'wb'` truncates. -/
def fetchBase (mode : Mode) (origFile : Option (List Nat)) : List Nat :=
  match mode with
  | Mode.ab => origFile.getD []
  | Mode.wb => []

/-- Operations up to and including the content request: the probe, the
sidecar write (lines 117–119, before the request), the request. -/
def fetchLogPre (url : List Char) (ss : Option Nat) (range : Option Nat) :
    List Op :=
  [Op.opHead, Op.opWriteMeta ⟨ss, url⟩, Op.opGet range]

/-- The generic `except Exception` handler (lines 147–154): the local
file is untouched, the sidecar is unlinked, one failure completion. -/
def fetchFail (url fn : List Char) (origFile : Option (List Nat))
    (ss : Option Nat) (range : Option Nat) (pre : List Event) : UnitResult :=
  { file := origFile
    meta := none
    events := pre ++ [Event.complete fn false Msg.err]
    outcome := Outcome.failed
    log := fetchLogPre url ss range ++ [Op.opUnlinkMeta] }

/-- Terminal bookkeeping after the streaming loop: the
`except DownloadCancelled` handler (lines 142–146: file and sidecar
kept), the generic handler for a mid-stream error, or the success path
(lines 139–140: sidecar kept — the code never unlinks it on success). -/
def fetchFinish (url fn : List Char) (ss : Option Nat) (range : Option Nat)
    (pre : List Event) (midErr : Bool) (st : StreamState)
    (cancelled : Bool) : UnitResult :=
  if cancelled then
    { file := some st.file
      meta := some ⟨ss, url⟩
      events := pre ++ st.events ++ [Event.complete fn false Msg.cancelled]
      outcome := Outcome.cancelled
      log := fetchLogPre url ss range ++ st.log }
  else if midErr then
    { file := some st.file
      meta := none
      events := pre ++ st.events ++ [Event.complete fn false Msg.err]
      outcome := Outcome.failed
      log := fetchLogPre url ss range ++ (st.log ++ [Op.opUnlinkMeta]) }
  else
    { file := some st.file
      meta := some ⟨ss, url⟩
      events := pre ++ st.events ++ [Event.complete fn true Msg.ok]
      outcome := Outcome.success
      log := fetchLogPre url ss range ++ st.log }

/-- Steps 2b–3 of `_download_single` (lines 116–154): write the sidecar
(before the content request), issue the content request with
`fetchRange`, check the status against the expected 206/200, stream the
body with `streamChunks`, and finish with the matching handler
(`fetchFail` / `fetchFinish`). -/
def fetchPhase (url filename : List Char) (scn : Scenario)
    (mode : Mode) (downloaded0 : Nat) (acceptsRanges : Bool)
    (serverSize : Option Nat) (preEvents : List Event) : UnitResult :=
  match scn.get (fetchRange acceptsRanges downloaded0) with
  | .error _ =>
    fetchFail url filename scn.initFile serverSize
      (fetchRange acceptsRanges downloaded0) preEvents
  | .ok resp =>
    if resp.status ≠
        (if (fetchRange acceptsRanges downloaded0).isSome ∧ acceptsRanges
         then 206 else 200) then
      fetchFail url filename scn.initFile serverSize
        (fetchRange acceptsRanges downloaded0) preEvents
    else
      fetchFinish url filename serverSize
        (fetchRange acceptsRanges downloaded0) preEvents resp.midStreamError
        (streamChunks filename scn.cancel
          (orTruthy serverSize (orTruthy resp.contentLength 0)) resp.chunks 0
          ⟨fetchBase mode scn.initFile, downloaded0, [], []⟩).1
        (streamChunks filename scn.cancel
          (orTruthy serverSize (orTruthy resp.contentLength 0)) resp.chunks 0
          ⟨fetchBase mode scn.initFile, downloaded0, [], []⟩).2

/-- Step 2 of `_download_single` (lines 91–114): inspect the local
file.  Existing file: resume (append from `local_size`) when resume is
on, ranges are accepted and the local size is below the server size;
short-circuit `"Уже загружен"` when the sizes are equal; otherwise
overwrite from scratch (`accepts_ranges` dropped to `False`).  No local
file: fresh write. -/
def decideStep (url filename : List Char) (resume : Bool)
    (scn : Scenario) (serverSize : Option Nat) (acceptsRanges : Bool) :
    UnitResult :=
  match scn.initFile with
  | some content =>
    if resume ∧ acceptsRanges ∧ pyLtOpt content.length serverSize then
      fetchPhase url filename scn Mode.ab content.length acceptsRanges
        serverSize
        [Event.progress filename content.length (serverSize.getD 0)]
    else if pyEqOpt content.length serverSize then
      { file := scn.initFile
        meta := scn.initMeta
        events := [Event.complete filename true Msg.already]
        outcome := Outcome.already
        log := [Op.opHead] }
    else
      fetchPhase url filename scn Mode.wb 0 false serverSize []
  | none =>
    fetchPhase url filename scn Mode.wb 0 acceptsRanges serverSize []

/-- `_download_single` (`src/gui/downloader.py` lines 68–155).
Step 1: HEAD probe — a non-200 status leaves `server_size = None` and
`accepts_ranges = False`; an unknown size also forces
`accepts_ranges = False` (line 87); a transport error falls through to
the generic `except Exception` handler (sidecar unlinked,
`on_complete(False)`).  Then `decideStep` and the fetch. -/
def downloadSingle (url filename : List Char) (resume : Bool)
    (scn : Scenario) : UnitResult :=
  match scn.head with
  | .error _ =>
    { file := scn.initFile
      meta := none
      events := [Event.complete filename false Msg.err]
      outcome := Outcome.failed
      log := [Op.opHead, Op.opUnlinkMeta] }
  | .ok h =>
    decideStep url filename resume scn
      (if h.status ≠ 200 then none else h.contentLength)
      (if (if h.status ≠ 200 then none else h.contentLength) = none
       then false
       else if h.status ≠ 200 then false else h.acceptRangesBytes)

/-! ## Orchestrator: `download_files` from `src/gui/downloader.py` -/

/-- Python `url.split('/')[-1]`. -/
def lastSegment (url : List Char) : List Char :=
  (url.splitOn '/').getLastD []

/-- How a `download_files` call terminated: a `ValueError` from
expansion, a `DownloadCancelled` propagated out of `asyncio.gather` or
the spawn loop, or a normal return. -/
inductive OrchOutcome
  | expandError (e : ExpandError)
  | cancelled
  | completed
  deriving Repr, DecidableEq

/-- Result of a `download_files` call: how it terminated, the
`(filename, unit result)` list for the units that ran, and the events
fired (the `on_start` events of the spawn loop followed by the units'
events). -/
structure RunResult where
  outcome : OrchOutcome
  units : List (List Char × UnitResult)
  events : List Event
  deriving Repr, DecidableEq

/-- The spawn loop of `download_files` (lines 54–64): per url, poll
`check_cancelled` (a set flag raises `DownloadCancelled`, so no further
unit is spawned and none has run yet), fire `on_start(filename)`, and
queue the unit.  Returns the `on_start` events plus `none` on
cancellation, or the queued `(url, filename)` tasks. -/
def spawnLoop (spawnCancel : Nat → Bool) :
    List (List Char) → Nat → List Event × Option (List (List Char × List Char))
  | [], _ => ([], some [])
  | url :: rest, i =>
    if spawnCancel i then ([], none)
    else
      let filename := lastSegment url
      match spawnLoop spawnCancel rest (i + 1) with
      | (evs, none) => (Event.started filename :: evs, none)
      | (evs, some tasks) =>
        (Event.started filename :: evs, some ((url, filename) :: tasks))

/-- `download_files` (`src/gui/downloader.py` lines 34–65): expand the
template (a `ValueError` escapes before anything is spawned), spawn one
unit per URL, run them all (`asyncio.gather`), and propagate
`DownloadCancelled` when a unit was cancelled.  The concurrent run is
sequentialized: `units` holds every unit's terminal result. -/
def download_files (template : List Char) (resume : Bool)
    (env : List Char → Scenario) (spawnCancel : Nat → Bool) : RunResult :=
  match expand_wildcard_url template with
  | .error e => ⟨OrchOutcome.expandError e, [], []⟩
  | .ok urls =>
    match spawnLoop spawnCancel urls 0 with
    | (evs, none) => ⟨OrchOutcome.cancelled, [], evs⟩
    | (evs, some tasks) =>
      let results := tasks.map fun t =>
        (t.2, downloadSingle t.1 t.2 resume (env t.1))
      let outcome :=
        if results.any fun r => r.2.outcome = Outcome.cancelled
        then OrchOutcome.cancelled else OrchOutcome.completed
      ⟨outcome, results, evs ++ (results.map fun r => r.2.events).flatten⟩

/-! ### Event and log counting helpers -/

/-- Is this event a completion (`on_complete`) event? -/
def isCompleteEv : Event → Bool
  | Event.complete _ _ _ => true
  | _ => false

/-- The completion events of a trace, in order. -/
def completions (evs : List Event) : List Event :=
  evs.filter isCompleteEv

/-- Is this logged operation a file write? -/
def isWriteOp : Op → Bool
  | Op.opWrite _ _ => true
  | _ => false

/-- Number of chunk writes in an operation log. -/
def countWrites (log : List Op) : Nat :=
  (log.filter isWriteOp).length

/-! ### Helper lemmas about the streaming loop -/

theorem streamChunks_file_prefix (fn : List Char) (c : Nat → Bool) (t : Nat) :
    ∀ (cs : List (List Nat)) (i : Nat) (st : StreamState),
      ∃ tail, (streamChunks fn c t cs i st).1.file = st.file ++ tail := by
  intro cs
  induction cs with
  | nil => intro i st; exact ⟨[], by simp [streamChunks]⟩
  | cons ch cs ih =>
    intro i st
    unfold streamChunks
    by_cases hc : c i
    · exact ⟨[], by simp [hc]⟩
    · obtain ⟨tail, htail⟩ := ih (i + 1)
        { file := st.file ++ ch
          downloaded := st.downloaded + ch.length
          events := st.events ++
            [Event.progress fn (st.downloaded + ch.length)
              (if t = 0 then st.downloaded + ch.length else t)]
          log := st.log ++ [Op.opWrite st.file.length ch] }
      exact ⟨ch ++ tail, by simp [hc, htail]⟩

theorem streamChunks_completions (fn : List Char) (c : Nat → Bool) (t : Nat) :
    ∀ (cs : List (List Nat)) (i : Nat) (st : StreamState),
      completions (streamChunks fn c t cs i st).1.events =
        completions st.events := by
  intro cs
  induction cs with
  | nil => intro i st; rfl
  | cons ch cs ih =>
    intro i st
    unfold streamChunks
    by_cases hc : c i
    · simp [hc]
    · simp only [hc, if_neg, Bool.false_eq_true, ite_false]
      rw [ih]
      simp [completions, isCompleteEv]

theorem streamChunks_not_cancelled (fn : List Char) (c : Nat → Bool) (t : Nat)
    (hc : ∀ k, c k = false) :
    ∀ (cs : List (List Nat)) (i : Nat) (st : StreamState),
      (streamChunks fn c t cs i st).2 = false := by
  intro cs
  induction cs with
  | nil => intro i st; rfl
  | cons ch cs ih =>
    intro i st
    unfold streamChunks
    simp only [hc i, Bool.false_eq_true, ite_false]
    exact ih (i + 1) _

theorem streamChunks_writes_le (fn : List Char) (c : Nat → Bool) (t : Nat)
    (j : Nat) (hj : c j = true) :
    ∀ (cs : List (List Nat)) (i : Nat) (st : StreamState), i ≤ j →
      countWrites (streamChunks fn c t cs i st).1.log ≤
        countWrites st.log + (j - i) := by
  intro cs
  induction cs with
  | nil => intro i st _; simp [streamChunks]
  | cons ch cs ih =>
    intro i st hij
    unfold streamChunks
    by_cases hc : c i
    · simp [hc]
    · have hilt : i < j := by
        rcases Nat.lt_or_ge i j with h | h
        · exact h
        · have : i = j := Nat.le_antisymm hij h
          rw [this] at hc
          exact absurd hj hc
      simp only [hc, Bool.false_eq_true, ite_false]
      have := ih (i + 1)
        { file := st.file ++ ch
          downloaded := st.downloaded + ch.length
          events := st.events ++
            [Event.progress fn (st.downloaded + ch.length)
              (if t = 0 then st.downloaded + ch.length else t)]
          log := st.log ++ [Op.opWrite st.file.length ch] } hilt
      have hcw : countWrites (st.log ++ [Op.opWrite st.file.length ch]) =
          countWrites st.log + 1 := by
        simp [countWrites, List.filter_append, isWriteOp]
      dsimp only at this
      rw [hcw] at this
      omega

/-! ### C4: already-downloaded short-circuit -/

/-- **C4**. If the local file exists and its size equals the
server-reported total size, `_download_single` short-circuits: it fires
exactly the single success completion `"Уже загружен"`, leaves the file
and the sidecar untouched, performs no content request and no write
(its whole log is the probe). -/
theorem downloadSingle_already (url filename : List Char) (resume : Bool)
    (scn : Scenario) (h : HeadResp) (s : Nat) (content : List Nat)
    (hhead : scn.head = .ok h) (hst : h.status = 200)
    (hlen : h.contentLength = some s)
    (hfile : scn.initFile = some content) (hsize : content.length = s) :
    downloadSingle url filename resume scn =
      { file := some content
        meta := scn.initMeta
        events := [Event.complete filename true Msg.already]
        outcome := Outcome.already
        log := [Op.opHead] } := by
  unfold downloadSingle
  rw [hhead]
  dsimp only
  unfold decideStep
  rw [hfile]
  dsimp only
  simp [hst, hlen, hsize, pyLtOpt, pyEqOpt, hfile]

/-- A scenario whose local file of size 3 matches the probed size 3;
the network would refuse any content request. -/
def alreadyScn : Scenario :=
  { initFile := some [10, 20, 30]
    initMeta := none
    head := .ok ⟨200, some 3, true⟩
    get := fun _ => .error ()
    cancel := fun _ => false }

/-- Witness for C4 at `alreadyScn`. -/
theorem downloadSingle_already_witness :
    alreadyScn.head = .ok ⟨200, some 3, true⟩ ∧
      alreadyScn.initFile = some [10, 20, 30] ∧
      downloadSingle "u".data "f".data true alreadyScn =
        { file := some [10, 20, 30]
          meta := alreadyScn.initMeta
          events := [Event.complete "f".data true Msg.already]
          outcome := Outcome.already
          log := [Op.opHead] } :=
  ⟨rfl, rfl,
    downloadSingle_already "u".data "f".data true alreadyScn
      ⟨200, some 3, true⟩ 3 [10, 20, 30] rfl rfl rfl rfl rfl⟩

/-! ### Shape lemmas about the fetch phase -/

theorem fetchFinish_log_shape (url fn : List Char) (ss : Option Nat)
    (range : Option Nat) (pre : List Event) (midErr : Bool)
    (st : StreamState) (c : Bool) :
    ∃ rest, (fetchFinish url fn ss range pre midErr st c).log =
      fetchLogPre url ss range ++ rest := by
  unfold fetchFinish
  split
  · exact ⟨_, rfl⟩
  · split
    · exact ⟨_, rfl⟩
    · exact ⟨_, rfl⟩

theorem fetchFinish_file (url fn : List Char) (ss : Option Nat)
    (range : Option Nat) (pre : List Event) (midErr : Bool)
    (st : StreamState) (c : Bool) :
    (fetchFinish url fn ss range pre midErr st c).file = some st.file := by
  unfold fetchFinish
  split
  · rfl
  · split
    · rfl
    · rfl

theorem fetchPhase_log_shape (url fn : List Char) (scn : Scenario)
    (mode : Mode) (d0 : Nat) (ar : Bool) (ss : Option Nat)
    (pre : List Event) :
    ∃ rest, (fetchPhase url fn scn mode d0 ar ss pre).log =
      Op.opHead :: Op.opWriteMeta ⟨ss, url⟩ ::
        Op.opGet (fetchRange ar d0) :: rest := by
  unfold fetchPhase
  split
  · exact ⟨[Op.opUnlinkMeta], rfl⟩
  case h_2 resp heq =>
    split <;> split
    · exact ⟨[Op.opUnlinkMeta], rfl⟩
    · exact fetchFinish_log_shape url fn ss (fetchRange ar d0) pre
        resp.midStreamError _ _
    · exact ⟨[Op.opUnlinkMeta], rfl⟩
    · exact fetchFinish_log_shape url fn ss (fetchRange ar d0) pre
        resp.midStreamError _ _

theorem fetchPhase_ab_file (url fn : List Char) (scn : Scenario)
    (d0 : Nat) (ar : Bool) (ss : Option Nat) (pre : List Event)
    (content : List Nat) (hfile : scn.initFile = some content) :
    ∃ f, (fetchPhase url fn scn Mode.ab d0 ar ss pre).file = some f ∧
      content <+: f := by
  have hbase : fetchBase Mode.ab scn.initFile = content := by
    rw [fetchBase, hfile]
    rfl
  unfold fetchPhase
  split
  · exact ⟨content, hfile, List.prefix_refl content⟩
  case h_2 resp heq =>
    split <;> split
    · exact ⟨content, hfile, List.prefix_refl content⟩
    · obtain ⟨tail, htail⟩ := streamChunks_file_prefix fn scn.cancel
        (orTruthy ss (orTruthy resp.contentLength 0)) resp.chunks 0
        ⟨fetchBase Mode.ab scn.initFile, d0, [], []⟩
      rw [fetchFinish_file]
      refine ⟨_, rfl, ?_⟩
      rw [htail]
      dsimp only
      rw [hbase]
      exact ⟨tail, rfl⟩
    · exact ⟨content, hfile, List.prefix_refl content⟩
    · obtain ⟨tail, htail⟩ := streamChunks_file_prefix fn scn.cancel
        (orTruthy ss (orTruthy resp.contentLength 0)) resp.chunks 0
        ⟨fetchBase Mode.ab scn.initFile, d0, [], []⟩
      rw [fetchFinish_file]
      refine ⟨_, rfl, ?_⟩
      rw [htail]
      dsimp only
      rw [hbase]
      exact ⟨tail, rfl⟩

/-! ### C2: resume appends, never truncates -/

/-- **C2**. When the local file exists, resume is enabled, the probe
succeeded with range support and a size strictly above the local size,
`_download_single` proceeds in append mode: the sidecar is written, the
content request carries Range offset exactly `localSize` (no Range
header when `localSize = 0`, which also starts at byte `localSize`),
and on every exit path the final local file still has the pre-existing
bytes as an unchanged prefix. -/
theorem downloadSingle_resume_append (url fn : List Char) (scn : Scenario)
    (h : HeadResp) (s : Nat) (content : List Nat)
    (hhead : scn.head = .ok h) (hst : h.status = 200)
    (hlen : h.contentLength = some s) (har : h.acceptRangesBytes = true)
    (hfile : scn.initFile = some content) (hlt : content.length < s) :
    (∃ rest, (downloadSingle url fn true scn).log =
      Op.opHead :: Op.opWriteMeta ⟨some s, url⟩ ::
        Op.opGet (if content.length > 0 then some content.length else none)
          :: rest) ∧
    ∃ f, (downloadSingle url fn true scn).file = some f ∧ content <+: f := by
  have hred : downloadSingle url fn true scn =
      fetchPhase url fn scn Mode.ab content.length true (some s)
        [Event.progress fn content.length s] := by
    unfold downloadSingle
    rw [hhead]
    dsimp only
    unfold decideStep
    rw [hfile]
    dsimp only
    simp [hst, hlen, har, pyLtOpt, hlt]
  rw [hred]
  constructor
  · obtain ⟨rest, hrest⟩ := fetchPhase_log_shape url fn scn Mode.ab
      content.length true (some s) [Event.progress fn content.length s]
    refine ⟨rest, ?_⟩
    rw [hrest]
    simp [fetchRange]
  · exact fetchPhase_ab_file url fn scn content.length true (some s) _
      content hfile

/-- A resume scenario: 2 bytes of 4 are on disk; the server honors the
ranged request with a 206 and the missing 2 bytes. -/
def resumeScn : Scenario :=
  { initFile := some [1, 2]
    initMeta := none
    head := .ok ⟨200, some 4, true⟩
    get := fun r =>
      match r with
      | some 2 => .ok ⟨206, some 2, [[3, 4]], false⟩
      | _ => .error ()
    cancel := fun _ => false }

/-- Witness for C2 at `resumeScn`. -/
theorem downloadSingle_resume_append_witness :
    resumeScn.head = .ok ⟨200, some 4, true⟩ ∧
      resumeScn.initFile = some [1, 2] ∧
      (2 : Nat) < 4 ∧
      ((∃ rest, (downloadSingle "u".data "f".data true resumeScn).log =
        Op.opHead :: Op.opWriteMeta ⟨some 4, "u".data⟩ ::
          Op.opGet (if ([1, 2] : List Nat).length > 0
            then some ([1, 2] : List Nat).length else none) :: rest) ∧
       ∃ f, (downloadSingle "u".data "f".data true resumeScn).file = some f ∧
        [1, 2] <+: f) :=
  ⟨rfl, rfl, by decide,
    downloadSingle_resume_append "u".data "f".data resumeScn
      ⟨200, some 4, true⟩ 4 [1, 2] rfl rfl rfl rfl rfl (by decide)⟩

/-! ### Case characterization of `_download_single` -/

/-- Every `_download_single` run is one of: probe transport failure,
already-downloaded short-circuit, or a fetch phase whose preceding
events contain no completion. -/
theorem decideStep_shape (url fn : List Char) (resume : Bool)
    (scn : Scenario) (ss : Option Nat) (ar : Bool) :
    decideStep url fn resume scn ss ar =
      { file := scn.initFile
        meta := scn.initMeta
        events := [Event.complete fn true Msg.already]
        outcome := Outcome.already
        log := [Op.opHead] } ∨
    ∃ mode d0 ar2 ss2 pre, completions pre = [] ∧
      decideStep url fn resume scn ss ar =
        fetchPhase url fn scn mode d0 ar2 ss2 pre := by
  unfold decideStep
  cases hf : scn.initFile with
  | none =>
    right
    exact ⟨Mode.wb, 0, ar, ss, [], rfl, rfl⟩
  | some content =>
    dsimp only
    split
    · right
      refine ⟨Mode.ab, content.length, ar, ss, _, ?_, rfl⟩
      rfl
    · split
      · left
        rfl
      · right
        exact ⟨Mode.wb, 0, false, ss, [], rfl, rfl⟩

/-- The downgraded decision after a failed probe: no size, no ranges —
whatever the local file state, the unit proceeds with a fresh full
fetch. -/
theorem decideStep_none_false (url fn : List Char) (resume : Bool)
    (scn : Scenario) :
    decideStep url fn resume scn none false =
      fetchPhase url fn scn Mode.wb 0 false none [] := by
  unfold decideStep
  cases hf : scn.initFile with
  | none => rfl
  | some content => simp [pyLtOpt, pyEqOpt]

theorem downloadSingle_shape (url fn : List Char) (resume : Bool)
    (scn : Scenario) :
    downloadSingle url fn resume scn =
      { file := scn.initFile
        meta := none
        events := [Event.complete fn false Msg.err]
        outcome := Outcome.failed
        log := [Op.opHead, Op.opUnlinkMeta] } ∨
    downloadSingle url fn resume scn =
      { file := scn.initFile
        meta := scn.initMeta
        events := [Event.complete fn true Msg.already]
        outcome := Outcome.already
        log := [Op.opHead] } ∨
    ∃ mode d0 ar ss pre, completions pre = [] ∧
      downloadSingle url fn resume scn =
        fetchPhase url fn scn mode d0 ar ss pre := by
  unfold downloadSingle
  cases hh : scn.head with
  | error e => left; rfl
  | ok h =>
    dsimp only
    rcases decideStep_shape url fn resume scn
        (if h.status ≠ 200 then none else h.contentLength)
        (if (if h.status ≠ 200 then none else h.contentLength) = none
         then false
         else if h.status ≠ 200 then false else h.acceptRangesBytes)
      with hcase | ⟨mode, d0, ar2, ss2, pre, hpre, hcase⟩
    · right; left
      exact hcase
    · right; right
      exact ⟨mode, d0, ar2, ss2, pre, hpre, hcase⟩

/-! ### C8: probe failure handling -/

/-- **C8 (amended)**. A probe that answers with a non-200 status does
not fail the unit: it proceeds to Deciding with
`accepts_ranges = false` and unknown size and issues a fresh full
content request (no Range header).  A probe that fails at the
transport level, however, falls into the generic exception handler:
the unit terminates `Failed` with one failure completion and no
content request is ever issued. -/
theorem downloadSingle_probe_failure (url fn : List Char) (resume : Bool)
    (scn : Scenario) :
    (∀ h, scn.head = .ok h → h.status ≠ 200 →
      downloadSingle url fn resume scn =
        fetchPhase url fn scn Mode.wb 0 false none [] ∧
      Op.opGet none ∈ (downloadSingle url fn resume scn).log) ∧
    (∀ e, scn.head = .error e →
      (downloadSingle url fn resume scn).outcome = Outcome.failed ∧
      (downloadSingle url fn resume scn).events =
        [Event.complete fn false Msg.err] ∧
      ∀ r, Op.opGet r ∉ (downloadSingle url fn resume scn).log) := by
  constructor
  · intro h hok hne
    have heq : downloadSingle url fn resume scn =
        fetchPhase url fn scn Mode.wb 0 false none [] := by
      unfold downloadSingle
      rw [hok]
      dsimp only
      simp only [hne, ne_eq, not_false_iff, ite_true, ite_self]
      exact decideStep_none_false url fn resume scn
    refine ⟨heq, ?_⟩
    rw [heq]
    obtain ⟨rest, hrest⟩ :=
      fetchPhase_log_shape url fn scn Mode.wb 0 false none []
    rw [hrest]
    have : fetchRange false 0 = none := rfl
    rw [this]
    simp
  · intro e herr
    have heq : downloadSingle url fn resume scn =
        { file := scn.initFile
          meta := none
          events := [Event.complete fn false Msg.err]
          outcome := Outcome.failed
          log := [Op.opHead, Op.opUnlinkMeta] } := by
      unfold downloadSingle
      rw [herr]
    rw [heq]
    refine ⟨rfl, rfl, ?_⟩
    intro r
    simp

/-- A scenario whose HEAD probe dies with a transport-level error; the
server would otherwise happily serve the content. -/
def probeErrScn : Scenario :=
  { initFile := none
    initMeta := none
    head := .error ()
    get := fun _ => .ok ⟨200, some 1, [[9]], false⟩
    cancel := fun _ => false }

/-- Counterexample to C8 as stated: on a transport-level probe error
the unit terminates in `Failed` (with no content request at all),
contradicting "the unit does not terminate in Failed because of the
probe: it proceeds to the Deciding step". -/
theorem downloadSingle_probe_transport_error_cx :
    (downloadSingle "u".data "f".data true probeErrScn).outcome =
        Outcome.failed ∧
      ∀ r, Op.opGet r ∉
        (downloadSingle "u".data "f".data true probeErrScn).log := by
  constructor
  · rfl
  · intro r
    show Op.opGet r ∉ [Op.opHead, Op.opUnlinkMeta]
    simp

/-- A scenario whose HEAD probe answers 404. -/
def probe404Scn : Scenario :=
  { initFile := none
    initMeta := none
    head := .ok ⟨404, none, false⟩
    get := fun _ => .ok ⟨200, some 1, [[9]], false⟩
    cancel := fun _ => false }

/-- Witness for C8 (amended) at the two scenarios `probe404Scn` and
`probeErrScn`. -/
theorem downloadSingle_probe_failure_witness :
    (downloadSingle "u".data "f".data true probe404Scn =
        fetchPhase "u".data "f".data probe404Scn Mode.wb 0 false none [] ∧
      Op.opGet none ∈
        (downloadSingle "u".data "f".data true probe404Scn).log) ∧
    ((downloadSingle "u".data "f".data true probeErrScn).outcome =
        Outcome.failed ∧
      (downloadSingle "u".data "f".data true probeErrScn).events =
        [Event.complete "f".data false Msg.err] ∧
      ∀ r, Op.opGet r ∉
        (downloadSingle "u".data "f".data true probeErrScn).log) :=
  ⟨(downloadSingle_probe_failure "u".data "f".data true probe404Scn).1
      ⟨404, none, false⟩ rfl (by decide),
   (downloadSingle_probe_failure "u".data "f".data true probeErrScn).2
      () rfl⟩

/-! ### C6: sidecar metadata lifecycle -/

theorem completions_append (a b : List Event) :
    completions (a ++ b) = completions a ++ completions b := by
  simp [completions]

theorem fetchFinish_sidecar (url fn : List Char) (ss : Option Nat)
    (range : Option Nat) (pre : List Event) (midErr : Bool)
    (st : StreamState) (c : Bool) :
    ((fetchFinish url fn ss range pre midErr st c).outcome =
        Outcome.failed →
      (fetchFinish url fn ss range pre midErr st c).meta = none) ∧
    ((fetchFinish url fn ss range pre midErr st c).outcome =
        Outcome.cancelled →
      (fetchFinish url fn ss range pre midErr st c).meta = some ⟨ss, url⟩) ∧
    ((fetchFinish url fn ss range pre midErr st c).outcome =
        Outcome.success →
      (fetchFinish url fn ss range pre midErr st c).meta = some ⟨ss, url⟩)
    := by
  unfold fetchFinish
  split
  · exact ⟨fun h => by simp at h, fun _ => rfl, fun h => by simp at h⟩
  · split
    · exact ⟨fun _ => rfl, fun h => by simp at h, fun h => by simp at h⟩
    · exact ⟨fun h => by simp at h, fun h => by simp at h, fun _ => rfl⟩

theorem fetchPhase_cases (url fn : List Char) (scn : Scenario)
    (mode : Mode) (d0 : Nat) (ar : Bool) (ss : Option Nat)
    (pre : List Event) :
    fetchPhase url fn scn mode d0 ar ss pre =
      fetchFail url fn scn.initFile ss (fetchRange ar d0) pre ∨
    ∃ resp, scn.get (fetchRange ar d0) = Except.ok resp ∧
      fetchPhase url fn scn mode d0 ar ss pre =
        fetchFinish url fn ss (fetchRange ar d0) pre resp.midStreamError
          (streamChunks fn scn.cancel
            (orTruthy ss (orTruthy resp.contentLength 0)) resp.chunks 0
            ⟨fetchBase mode scn.initFile, d0, [], []⟩).1
          (streamChunks fn scn.cancel
            (orTruthy ss (orTruthy resp.contentLength 0)) resp.chunks 0
            ⟨fetchBase mode scn.initFile, d0, [], []⟩).2 := by
  unfold fetchPhase
  split
  · left; rfl
  case h_2 resp heq =>
    split <;> split
    · left; rfl
    · right; exact ⟨resp, heq, rfl⟩
    · left; rfl
    · right; exact ⟨resp, heq, rfl⟩

theorem fetchPhase_sidecar (url fn : List Char) (scn : Scenario)
    (mode : Mode) (d0 : Nat) (ar : Bool) (ss : Option Nat)
    (pre : List Event) :
    ((fetchPhase url fn scn mode d0 ar ss pre).outcome = Outcome.failed →
      (fetchPhase url fn scn mode d0 ar ss pre).meta = none) ∧
    ((fetchPhase url fn scn mode d0 ar ss pre).outcome = Outcome.cancelled →
      (fetchPhase url fn scn mode d0 ar ss pre).meta = some ⟨ss, url⟩) ∧
    ((fetchPhase url fn scn mode d0 ar ss pre).outcome = Outcome.success →
      (fetchPhase url fn scn mode d0 ar ss pre).meta = some ⟨ss, url⟩) := by
  rcases fetchPhase_cases url fn scn mode d0 ar ss pre with
    hcase | ⟨resp, hget, hcase⟩ <;> rw [hcase]
  · exact ⟨fun _ => rfl, fun h => by simp [fetchFail] at h,
      fun h => by simp [fetchFail] at h⟩
  · exact fetchFinish_sidecar url fn ss (fetchRange ar d0) pre
      resp.midStreamError _ _

/-- **C6 (amended)**. For every run: the sidecar write happens before
the content request (the log, whenever it contains a content request,
begins probe / sidecar-write / request in that order); the sidecar is
removed on non-cancellation failure; it is left in place on
cancellation — and also on success, which the original claim denies. -/
theorem downloadSingle_sidecar_lifecycle (url fn : List Char)
    (resume : Bool) (scn : Scenario) :
    ((∃ r, Op.opGet r ∈ (downloadSingle url fn resume scn).log) →
      ∃ m rng rest, (downloadSingle url fn resume scn).log =
        Op.opHead :: Op.opWriteMeta m :: Op.opGet rng :: rest) ∧
    ((downloadSingle url fn resume scn).outcome = Outcome.failed →
      (downloadSingle url fn resume scn).meta = none) ∧
    ((downloadSingle url fn resume scn).outcome = Outcome.cancelled →
      ∃ m, (downloadSingle url fn resume scn).meta = some m) ∧
    ((downloadSingle url fn resume scn).outcome = Outcome.success →
      ∃ m, (downloadSingle url fn resume scn).meta = some m) := by
  rcases downloadSingle_shape url fn resume scn with
    hcase | hcase | ⟨mode, d0, ar, ss, pre, hpre, hcase⟩ <;> rw [hcase]
  · refine ⟨?_, fun _ => rfl, fun h => by simp at h, fun h => by simp at h⟩
    rintro ⟨r, hr⟩
    simp at hr
  · refine ⟨?_, fun h => by simp at h, fun h => by simp at h, fun h => by simp at h⟩
    rintro ⟨r, hr⟩
    simp at hr
  · obtain ⟨rest, hlog⟩ := fetchPhase_log_shape url fn scn mode d0 ar ss pre
    obtain ⟨hfail, hcanc, hsucc⟩ :=
      fetchPhase_sidecar url fn scn mode d0 ar ss pre
    exact ⟨fun _ => ⟨⟨ss, url⟩, fetchRange ar d0, rest, hlog⟩,
      hfail, fun h => ⟨_, hcanc h⟩, fun h => ⟨_, hsucc h⟩⟩

/-- A plain successful download of a fresh 2-byte file. -/
def successScn : Scenario :=
  { initFile := none
    initMeta := none
    head := .ok ⟨200, some 2, false⟩
    get := fun r =>
      match r with
      | none => .ok ⟨200, some 2, [[7, 8]], false⟩
      | some _ => .error ()
    cancel := fun _ => false }

/-- Counterexample to C6 as stated: this unit terminates in success and
its sidecar file is still present afterwards — the code removes the
sidecar only in the generic exception handler, never on success. -/
theorem downloadSingle_meta_kept_on_success_cx :
    (downloadSingle "u".data "f".data true successScn).outcome =
        Outcome.success ∧
      (downloadSingle "u".data "f".data true successScn).meta =
        some ⟨some 2, "u".data⟩ := ⟨rfl, rfl⟩

/-- Witness for C6 (amended) at `successScn`. -/
theorem downloadSingle_sidecar_lifecycle_witness :
    (∃ m rng rest,
      (downloadSingle "u".data "f".data true successScn).log =
        Op.opHead :: Op.opWriteMeta m :: Op.opGet rng :: rest) ∧
    ∃ m, (downloadSingle "u".data "f".data true successScn).meta =
      some m :=
  ⟨(downloadSingle_sidecar_lifecycle "u".data "f".data true successScn).1
      ⟨none, by decide⟩,
   (downloadSingle_sidecar_lifecycle "u".data "f".data
      true successScn).2.2.2 rfl⟩

/-! ### C7: cancellation mid-transfer -/

theorem countWrites_logPre (url : List Char) (ss : Option Nat)
    (range : Option Nat) (l : List Op) :
    countWrites (fetchLogPre url ss range ++ l) = countWrites l := by
  simp [countWrites, fetchLogPre, List.filter_append, isWriteOp]

theorem fetchFinish_cancelled_char (url fn : List Char) (ss : Option Nat)
    (range : Option Nat) (pre : List Event) (midErr : Bool)
    (st : StreamState) (c : Bool)
    (hout : (fetchFinish url fn ss range pre midErr st c).outcome =
      Outcome.cancelled) :
    c = true ∧ fetchFinish url fn ss range pre midErr st c =
      { file := some st.file
        meta := some ⟨ss, url⟩
        events := pre ++ st.events ++ [Event.complete fn false Msg.cancelled]
        outcome := Outcome.cancelled
        log := fetchLogPre url ss range ++ st.log } := by
  cases c with
  | true => exact ⟨rfl, by simp [fetchFinish]⟩
  | false =>
    exfalso
    cases midErr with
    | true => simp [fetchFinish] at hout
    | false => simp [fetchFinish] at hout

theorem fetchPhase_cancelled (url fn : List Char) (scn : Scenario)
    (mode : Mode) (d0 : Nat) (ar : Bool) (ss : Option Nat)
    (pre : List Event) (j : Nat)
    (hpre : completions pre = [])
    (hj : scn.cancel j = true)
    (hout : (fetchPhase url fn scn mode d0 ar ss pre).outcome =
      Outcome.cancelled) :
    (∃ f, (fetchPhase url fn scn mode d0 ar ss pre).file = some f) ∧
    countWrites (fetchPhase url fn scn mode d0 ar ss pre).log ≤ j ∧
    completions (fetchPhase url fn scn mode d0 ar ss pre).events =
      [Event.complete fn false Msg.cancelled] := by
  rcases fetchPhase_cases url fn scn mode d0 ar ss pre with
    hcase | ⟨resp, hget, hcase⟩
  · rw [hcase] at hout
    simp [fetchFail] at hout
  · rw [hcase] at hout ⊢
    obtain ⟨hc, hfin⟩ := fetchFinish_cancelled_char _ _ _ _ _ _ _ _ hout
    rw [hfin]
    refine ⟨⟨_, rfl⟩, ?_, ?_⟩
    · show countWrites (fetchLogPre url ss (fetchRange ar d0) ++ _) ≤ j
      rw [countWrites_logPre]
      have hle := streamChunks_writes_le fn scn.cancel
        (orTruthy ss (orTruthy resp.contentLength 0)) j hj resp.chunks 0
        ⟨fetchBase mode scn.initFile, d0, [], []⟩ (Nat.zero_le j)
      simpa [countWrites] using hle
    · show completions (pre ++ _ ++ [Event.complete fn false Msg.cancelled])
        = _
      rw [completions_append, completions_append, hpre,
        streamChunks_completions]
      rfl

/-- **C7**. A unit that terminates `Cancelled` — the flag was seen true
at the poll before chunk `j` — keeps its partial file (the final local
file exists), has written at most the `j` chunks delivered before the
flag was observed, and has fired exactly one completion event, a
non-success cancellation one. -/
theorem downloadSingle_cancelled_mid_transfer (url fn : List Char)
    (resume : Bool) (scn : Scenario) (j : Nat)
    (hj : scn.cancel j = true)
    (hout : (downloadSingle url fn resume scn).outcome =
      Outcome.cancelled) :
    (∃ f, (downloadSingle url fn resume scn).file = some f) ∧
    countWrites (downloadSingle url fn resume scn).log ≤ j ∧
    completions (downloadSingle url fn resume scn).events =
      [Event.complete fn false Msg.cancelled] := by
  rcases downloadSingle_shape url fn resume scn with
    hcase | hcase | ⟨mode, d0, ar, ss, pre, hpre, hcase⟩
  · rw [hcase] at hout
    simp at hout
  · rw [hcase] at hout
    simp at hout
  · rw [hcase] at hout ⊢
    exact fetchPhase_cancelled url fn scn mode d0 ar ss pre j hpre hj hout

/-- A run cancelled at the poll before the second chunk. -/
def cancelScn : Scenario :=
  { initFile := none
    initMeta := none
    head := .ok ⟨200, some 2, false⟩
    get := fun r =>
      match r with
      | none => .ok ⟨200, some 2, [[1], [2]], false⟩
      | some _ => .error ()
    cancel := fun k => decide (1 ≤ k) }

/-- Witness for C7 at `cancelScn` with `j = 1`. -/
theorem downloadSingle_cancelled_mid_transfer_witness :
    cancelScn.cancel 1 = true ∧
    (downloadSingle "u".data "f".data true cancelScn).outcome =
      Outcome.cancelled ∧
    ((∃ f, (downloadSingle "u".data "f".data true cancelScn).file =
        some f) ∧
      countWrites (downloadSingle "u".data "f".data true cancelScn).log
        ≤ 1 ∧
      completions
        (downloadSingle "u".data "f".data true cancelScn).events =
        [Event.complete "f".data false Msg.cancelled]) :=
  ⟨rfl, rfl,
    downloadSingle_cancelled_mid_transfer "u".data "f".data true
      cancelScn 1 rfl rfl⟩

/-! ### C9: failure isolation in the orchestrator -/

theorem fetchFinish_one_completion (url fn : List Char) (ss : Option Nat)
    (range : Option Nat) (pre : List Event) (midErr : Bool)
    (st : StreamState) (c : Bool)
    (hpre : completions pre = []) (hst : completions st.events = []) :
    ∃ b m,
      completions (fetchFinish url fn ss range pre midErr st c).events =
        [Event.complete fn b m] ∧
      (b = true ↔ (fetchFinish url fn ss range pre midErr st c).outcome =
        Outcome.success) := by
  unfold fetchFinish
  split
  · refine ⟨false, Msg.cancelled, ?_, by simp⟩
    show completions (pre ++ st.events ++ [_]) = _
    rw [completions_append, completions_append, hpre, hst]
    rfl
  · split
    · refine ⟨false, Msg.err, ?_, by simp⟩
      show completions (pre ++ st.events ++ [_]) = _
      rw [completions_append, completions_append, hpre, hst]
      rfl
    · refine ⟨true, Msg.ok, ?_, by simp⟩
      show completions (pre ++ st.events ++ [_]) = _
      rw [completions_append, completions_append, hpre, hst]
      rfl

theorem fetchFinish_not_already (url fn : List Char) (ss : Option Nat)
    (range : Option Nat) (pre : List Event) (midErr : Bool)
    (st : StreamState) (c : Bool) :
    (fetchFinish url fn ss range pre midErr st c).outcome ≠
      Outcome.already := by
  unfold fetchFinish
  split
  · simp
  · split <;> simp

theorem fetchPhase_one_completion (url fn : List Char) (scn : Scenario)
    (mode : Mode) (d0 : Nat) (ar : Bool) (ss : Option Nat)
    (pre : List Event) (hpre : completions pre = []) :
    ∃ b m,
      completions (fetchPhase url fn scn mode d0 ar ss pre).events =
        [Event.complete fn b m] ∧
      (b = true ↔ (fetchPhase url fn scn mode d0 ar ss pre).outcome =
        Outcome.success) := by
  rcases fetchPhase_cases url fn scn mode d0 ar ss pre with
    hcase | ⟨resp, hget, hcase⟩ <;> rw [hcase]
  · refine ⟨false, Msg.err, ?_, by simp [fetchFail]⟩
    show completions (pre ++ [_]) = _
    rw [completions_append, hpre]
    rfl
  · apply fetchFinish_one_completion _ _ _ _ _ _ _ _ hpre
    rw [streamChunks_completions]
    rfl

theorem fetchPhase_not_already (url fn : List Char) (scn : Scenario)
    (mode : Mode) (d0 : Nat) (ar : Bool) (ss : Option Nat)
    (pre : List Event) :
    (fetchPhase url fn scn mode d0 ar ss pre).outcome ≠
      Outcome.already := by
  rcases fetchPhase_cases url fn scn mode d0 ar ss pre with
    hcase | ⟨resp, hget, hcase⟩ <;> rw [hcase]
  · simp [fetchFail]
  · exact fetchFinish_not_already _ _ _ _ _ _ _ _

/-- Every `_download_single` run fires exactly one completion event,
successful exactly on the success and already-downloaded outcomes. -/
theorem downloadSingle_one_completion (url fn : List Char)
    (resume : Bool) (scn : Scenario) :
    ∃ b m,
      completions (downloadSingle url fn resume scn).events =
        [Event.complete fn b m] ∧
      (b = true ↔ ((downloadSingle url fn resume scn).outcome =
          Outcome.success ∨
        (downloadSingle url fn resume scn).outcome = Outcome.already))
    := by
  rcases downloadSingle_shape url fn resume scn with
    hcase | hcase | ⟨mode, d0, ar, ss, pre, hpre, hcase⟩ <;> rw [hcase]
  · exact ⟨false, Msg.err, rfl, by simp⟩
  · exact ⟨true, Msg.already, rfl, by simp⟩
  · obtain ⟨b, m, h1, h2⟩ :=
      fetchPhase_one_completion url fn scn mode d0 ar ss pre hpre
    refine ⟨b, m, h1, ?_⟩
    constructor
    · intro hb
      exact Or.inl (h2.mp hb)
    · rintro (h | h)
      · exact h2.mpr h
      · exact absurd h (fetchPhase_not_already url fn scn mode d0 ar ss pre)

theorem fetchFinish_not_cancelled_of (url fn : List Char)
    (ss : Option Nat) (range : Option Nat) (pre : List Event)
    (midErr : Bool) (st : StreamState) :
    (fetchFinish url fn ss range pre midErr st false).outcome ≠
      Outcome.cancelled := by
  cases midErr <;> simp [fetchFinish]

theorem fetchPhase_not_cancelled (url fn : List Char) (scn : Scenario)
    (mode : Mode) (d0 : Nat) (ar : Bool) (ss : Option Nat)
    (pre : List Event) (hnc : ∀ k, scn.cancel k = false) :
    (fetchPhase url fn scn mode d0 ar ss pre).outcome ≠
      Outcome.cancelled := by
  rcases fetchPhase_cases url fn scn mode d0 ar ss pre with
    hcase | ⟨resp, hget, hcase⟩ <;> rw [hcase]
  · simp [fetchFail]
  · rw [streamChunks_not_cancelled fn scn.cancel _ hnc]
    exact fetchFinish_not_cancelled_of _ _ _ _ _ _ _

/-- If the cancellation flag is never set, `_download_single` cannot
terminate in `Cancelled`. -/
theorem downloadSingle_not_cancelled (url fn : List Char)
    (resume : Bool) (scn : Scenario)
    (hnc : ∀ k, scn.cancel k = false) :
    (downloadSingle url fn resume scn).outcome ≠ Outcome.cancelled := by
  rcases downloadSingle_shape url fn resume scn with
    hcase | hcase | ⟨mode, d0, ar, ss, pre, hpre, hcase⟩ <;> rw [hcase]
  · simp
  · simp
  · exact fetchPhase_not_cancelled url fn scn mode d0 ar ss pre hnc

theorem spawnLoop_no_cancel (sc : Nat → Bool) (hsc : ∀ i, sc i = false) :
    ∀ (urls : List (List Char)) (i : Nat),
      spawnLoop sc urls i =
        (urls.map fun u => Event.started (lastSegment u),
         some (urls.map fun u => (u, lastSegment u))) := by
  intro urls
  induction urls with
  | nil => intro i; rfl
  | cons u rest ih =>
    intro i
    unfold spawnLoop
    rw [hsc i, ih (i + 1)]
    simp

/-- **C9**. With no cancellation request, a run over any expanded
targets returns normally (`completed` — a unit's terminal failure
raises nothing out of the orchestrator), produces one terminal unit
result per target, and every target gets exactly one completion event —
non-success whenever that unit failed — independent of the other
units. -/
theorem download_files_failure_isolation (template : List Char)
    (resume : Bool) (env : List Char → Scenario)
    (spawnCancel : Nat → Bool) (urls : List (List Char))
    (hok : expand_wildcard_url template = .ok urls)
    (hsc : ∀ i, spawnCancel i = false)
    (hnc : ∀ url k, (env url).cancel k = false) :
    (download_files template resume env spawnCancel).outcome =
      OrchOutcome.completed ∧
    (download_files template resume env spawnCancel).units.length =
      urls.length ∧
    ∀ u ∈ (download_files template resume env spawnCancel).units,
      ∃ b m, completions u.2.events = [Event.complete u.1 b m] ∧
        (u.2.outcome = Outcome.failed → b = false) := by
  have hany : ((urls.map fun u => (u, lastSegment u)).map fun t =>
      (t.2, downloadSingle t.1 t.2 resume (env t.1))).any
        (fun r => r.2.outcome = Outcome.cancelled) = false := by
    rw [List.any_eq_false]
    intro r hr
    simp only [List.mem_map] at hr
    obtain ⟨t, ht, rfl⟩ := hr
    have := downloadSingle_not_cancelled t.1 t.2 resume (env t.1)
      (hnc t.1)
    simpa using this
  have hrun : download_files template resume env spawnCancel =
      ⟨OrchOutcome.completed,
       (urls.map fun u => (u, lastSegment u)).map fun t =>
         (t.2, downloadSingle t.1 t.2 resume (env t.1)),
       (urls.map fun u => Event.started (lastSegment u)) ++
         (((urls.map fun u => (u, lastSegment u)).map fun t =>
           (t.2, downloadSingle t.1 t.2 resume (env t.1))).map
             fun r => r.2.events).flatten⟩ := by
    unfold download_files
    rw [hok]
    dsimp only
    rw [spawnLoop_no_cancel spawnCancel hsc urls 0]
    dsimp only
    rw [hany]
    simp
  rw [hrun]
  refine ⟨rfl, by simp, ?_⟩
  intro u hu
  simp only [List.mem_map] at hu
  obtain ⟨t, ht, rfl⟩ := hu
  obtain ⟨t2, ht2, rfl⟩ := ht
  obtain ⟨b, m, h1, h2⟩ := downloadSingle_one_completion t2
    (lastSegment t2) resume (env t2)
  refine ⟨b, m, h1, ?_⟩
  intro hf
  cases b with
  | false => rfl
  | true =>
    rcases h2.mp rfl with h | h <;> rw [hf] at h <;> simp at h

/-- A unit whose content request always dies with a transport error:
with no retries in `_download_single`, this target fails terminally. -/
def failScn : Scenario :=
  { initFile := none
    initMeta := none
    head := .ok ⟨200, some 1, false⟩
    get := fun _ => .error ()
    cancel := fun _ => false }

/-- Environment for the C9 witness: target `f_1.bin` fails terminally,
every other target succeeds. -/
def envC9 : List Char → Scenario := fun url =>
  if url = "http://e.com/f_1.bin".data then failScn else successScn

/-- Witness for C9: two targets, the first fails, the run still
completes with one completion event per target. -/
theorem download_files_failure_isolation_witness :
    (download_files "http://e.com/f_\x7b1..2\x7d.bin".data true envC9
        (fun _ => false)).outcome = OrchOutcome.completed ∧
    (download_files "http://e.com/f_\x7b1..2\x7d.bin".data true envC9
        (fun _ => false)).units.length =
      (["http://e.com/f_1.bin".data,
        "http://e.com/f_2.bin".data] : List (List Char)).length ∧
    ∀ u ∈ (download_files "http://e.com/f_\x7b1..2\x7d.bin".data true
        envC9 (fun _ => false)).units,
      ∃ b m, completions u.2.events = [Event.complete u.1 b m] ∧
        (u.2.outcome = Outcome.failed → b = false) :=
  download_files_failure_isolation
    "http://e.com/f_\x7b1..2\x7d.bin".data true envC9 (fun _ => false)
    ["http://e.com/f_1.bin".data, "http://e.com/f_2.bin".data] rfl
    (fun _ => rfl)
    (fun url k => by unfold envC9; split <;> rfl)

/-! ### C10: expansion errors fail fast -/

/-- **C10**. A template with no `\x7b<digits>..<digits>\x7d` token makes
the expander fail with `InvalidTemplate`, and a token with
`start > end` makes it fail with `InvalidRange`; in both cases the
orchestrator returns that error with no unit spawned and no event
fired — so before any network or file I/O. -/
theorem expansion_errors_fail_fast (template : List Char)
    (resume : Bool) (env : List Char → Scenario)
    (spawnCancel : Nat → Bool) :
    (searchToken template = none →
      expand_wildcard_url template = .error ExpandError.invalidTemplate ∧
      download_files template resume env spawnCancel =
        ⟨OrchOutcome.expandError ExpandError.invalidTemplate, [], []⟩) ∧
    (∀ p d1 d2 q, searchToken template = some (p, d1, d2, q) →
      digitsToNat d2 < digitsToNat d1 →
      expand_wildcard_url template = .error ExpandError.invalidRange ∧
      download_files template resume env spawnCancel =
        ⟨OrchOutcome.expandError ExpandError.invalidRange, [], []⟩) := by
  constructor
  · intro hno
    have hexp : expand_wildcard_url template =
        .error ExpandError.invalidTemplate := by
      unfold expand_wildcard_url
      rw [hno]
    refine ⟨hexp, ?_⟩
    unfold download_files
    rw [hexp]
  · intro p d1 d2 q hfind hgt
    have hexp : expand_wildcard_url template =
        .error ExpandError.invalidRange := by
      unfold expand_wildcard_url
      rw [hfind]
      dsimp only
      rw [if_pos hgt]
    refine ⟨hexp, ?_⟩
    unfold download_files
    rw [hexp]

/-- Witness for C10 at the two templates `no_token.bin` and
`\x7b5..3\x7d.bin`. -/
theorem expansion_errors_fail_fast_witness :
    (expand_wildcard_url "http://x.com/file.csv".data =
        .error ExpandError.invalidTemplate ∧
      download_files "http://x.com/file.csv".data true envC9
          (fun _ => false) =
        ⟨OrchOutcome.expandError ExpandError.invalidTemplate, [], []⟩) ∧
    (expand_wildcard_url "http://x.com/\x7b5..3\x7d.bin".data =
        .error ExpandError.invalidRange ∧
      download_files "http://x.com/\x7b5..3\x7d.bin".data true envC9
          (fun _ => false) =
        ⟨OrchOutcome.expandError ExpandError.invalidRange, [], []⟩) :=
  ⟨(expansion_errors_fail_fast "http://x.com/file.csv".data true envC9
      (fun _ => false)).1 rfl,
   (expansion_errors_fail_fast "http://x.com/\x7b5..3\x7d.bin".data true
      envC9 (fun _ => false)).2 "http://x.com/".data ['5'] ['3']
      ".bin".data rfl (by decide)⟩

/-! ## CLI retry path: `download_file` from `src/download_files.py`

With `retries_enabled`, `download_file` wraps the closure `_download`
(lines 119–141) in `@retry(stop=stop_after_attempt(max_attempts),
wait=wait_fixed(delay), reraise=True)`.  Each attempt performs
`session.get(url)` with **no** Range header, checks for status 200, and
then opens `filepath` with mode `'wb'` — truncating the file — before
appending the delivered chunks.  The write log records each chunk write
as `(attempt index, offset within file, bytes)`. -/

/-- The write log of one attempt's streaming loop: chunk `k` goes at
the running offset (the file was just truncated, so offsets restart at
`off = 0` each attempt). -/
def chunkWrites (attempt : Nat) :
    List (List Nat) → Nat → List (Nat × Nat × List Nat)
  | [], _ => []
  | c :: cs, off => (attempt, off, c) :: chunkWrites attempt cs (off + c.length)

/-- The tenacity retry loop around `_download`: attempt `idx` sees the
response `scns idx`; a transport error or a non-200 status fails the
attempt with the file untouched; a 200 truncates and rewrites the file
(a mid-stream error keeps the bytes written so far and retries).  At
most `fuel` attempts run (`stop_after_attempt`); `reraise` means the
final failure propagates, caught by `download_file`'s own handler.
Returns (final file, accumulated write log, success). -/
def retryLoop (scns : Nat → Except Unit GetResp) :
    Nat → Nat → Option (List Nat) →
    Option (List Nat) × List (Nat × Nat × List Nat) × Bool
  | 0, _, file => (file, [], false)
  | fuel + 1, idx, file =>
    match scns idx with
    | .error _ => retryLoop scns fuel (idx + 1) file
    | .ok resp =>
      if resp.status ≠ 200 then retryLoop scns fuel (idx + 1) file
      else if resp.midStreamError then
        ((retryLoop scns fuel (idx + 1) (some resp.chunks.flatten)).1,
         chunkWrites idx resp.chunks 0 ++
           (retryLoop scns fuel (idx + 1)
             (some resp.chunks.flatten)).2.1,
         (retryLoop scns fuel (idx + 1) (some resp.chunks.flatten)).2.2)
      else (some resp.chunks.flatten, chunkWrites idx resp.chunks 0, true)

/-- `download_file` with `retries_enabled` (`src/download_files.py`
lines 108–144): the decorated `_download()` with fresh parameters. -/
def download_file_cli (scns : Nat → Except Unit GetResp)
    (maxAttempts : Nat) (initFile : Option (List Nat)) :
    Option (List Nat) × List (Nat × Nat × List Nat) × Bool :=
  retryLoop scns maxAttempts 0 initFile

/-- Schedule for the C5 counterexample: attempt 0 gets one chunk `[7]`
then the stream dies; attempt 1 gets the full body `[7], [8]`. -/
def cxScns : Nat → Except Unit GetResp := fun k =>
  match k with
  | 0 => .ok ⟨200, some 2, [[7]], true⟩
  | _ => .ok ⟨200, some 2, [[7], [8]], false⟩

/-- Counterexample to C5 as stated: after attempt 0 wrote bytes `[7]`
at offset 0 and failed mid-stream (local file size 1), the retried
attempt 1 writes offset 0 again (entry `(1, 0, [7])`) instead of
resuming from the persisted offset 1 — `_download` reopens the file in
truncating 'wb' mode and re-requests the full content, so the byte
range `[0, 1)` written by attempt 0 is written a second time. -/
theorem download_file_cli_rewrites_cx :
    (download_file_cli cxScns 2 none).2.1 =
      [(0, 0, [7]), (1, 0, [7]), (1, 1, [8])] ∧
    (0, 0, [7]) ∈ (download_file_cli cxScns 2 none).2.1 ∧
    (1, 0, [7]) ∈ (download_file_cli cxScns 2 none).2.1 :=
  ⟨rfl, by decide, by decide⟩

theorem chunkWrites_attempt (a : Nat) :
    ∀ (cs : List (List Nat)) (off : Nat) (a2 o : Nat) (b : List Nat),
      (a2, o, b) ∈ chunkWrites a cs off → a2 = a := by
  intro cs
  induction cs with
  | nil => intro off a2 o b h; simp [chunkWrites] at h
  | cons c cs ih =>
    intro off a2 o b h
    rw [chunkWrites] at h
    rcases List.mem_cons.mp h with h | h
    · injection h with h1 h2
    · exact ih (off + c.length) a2 o b h

theorem chunkWrites_offsets (a : Nat) :
    ∀ (cs : List (List Nat)) (off : Nat) (o : Nat) (b : List Nat),
      (a, o, b) ∈ chunkWrites a cs off →
      o = off ∨ ∃ o2 b2, (a, o2, b2) ∈ chunkWrites a cs off ∧
        o = o2 + b2.length := by
  intro cs
  induction cs with
  | nil => intro off o b h; simp [chunkWrites] at h
  | cons c cs ih =>
    intro off o b h
    rw [chunkWrites] at h
    rcases List.mem_cons.mp h with h | h
    · left
      injection h with h1 h
      injection h with h2 h3
    · rcases ih (off + c.length) o b h with h2 | ⟨o2, b2, hm, he⟩
      · right
        exact ⟨off, c, List.mem_cons_self _ _, h2⟩
      · right
        exact ⟨o2, b2, List.mem_cons_of_mem _ hm, he⟩

theorem retryLoop_writes (scns : Nat → Except Unit GetResp) :
    ∀ (fuel idx : Nat) (file : Option (List Nat)) (a o : Nat)
      (b : List Nat),
      (a, o, b) ∈ (retryLoop scns fuel idx file).2.1 →
      o = 0 ∨ ∃ o2 b2,
        (a, o2, b2) ∈ (retryLoop scns fuel idx file).2.1 ∧
        o = o2 + b2.length := by
  intro fuel
  induction fuel with
  | zero => intro idx file a o b h; simp [retryLoop] at h
  | succ fuel ih =>
    intro idx file a o b h
    rw [retryLoop] at h ⊢
    cases hA : scns idx with
    | error e =>
      rw [hA] at h
      dsimp only at h ⊢
      exact ih (idx + 1) file a o b h
    | ok resp =>
      rw [hA] at h
      dsimp only at h ⊢
      by_cases hst : resp.status ≠ 200
      · rw [if_pos hst] at h ⊢
        exact ih (idx + 1) file a o b h
      · rw [if_neg hst] at h ⊢
        cases hm : resp.midStreamError with
        | true =>
          rw [hm] at h
          rw [if_pos (rfl : true = true)] at h ⊢
          dsimp only at h ⊢
          rcases List.mem_append.mp h with h | h
          · have ha := chunkWrites_attempt idx resp.chunks 0 a o b h
            subst ha
            rcases chunkWrites_offsets a resp.chunks 0 o b h with
              h2 | ⟨o2, b2, hm2, he⟩
            · exact Or.inl h2
            · exact Or.inr ⟨o2, b2, List.mem_append_left _ hm2, he⟩
          · rcases ih (idx + 1) (some resp.chunks.flatten) a o b h with
              h2 | ⟨o2, b2, hm2, he⟩
            · exact Or.inl h2
            · exact Or.inr ⟨o2, b2, List.mem_append_right _ hm2, he⟩
        | false =>
          rw [hm] at h
          rw [if_neg (by decide : ¬(false = true))] at h ⊢
          dsimp only at h ⊢
          have ha := chunkWrites_attempt idx resp.chunks 0 a o b h
          subst ha
          exact chunkWrites_offsets a resp.chunks 0 o b h

theorem retryLoop_success (scns : Nat → Except Unit GetResp) :
    ∀ (fuel idx : Nat) (file : Option (List Nat)),
      (retryLoop scns fuel idx file).2.2 = true →
      ∃ k resp, scns k = .ok resp ∧ resp.status = 200 ∧
        resp.midStreamError = false ∧ idx ≤ k ∧ k < idx + fuel ∧
        (retryLoop scns fuel idx file).1 =
          some resp.chunks.flatten := by
  intro fuel
  induction fuel with
  | zero => intro idx file h; simp [retryLoop] at h
  | succ fuel ih =>
    intro idx file h
    rw [retryLoop] at h ⊢
    cases hA : scns idx with
    | error e =>
      rw [hA] at h
      dsimp only at h ⊢
      obtain ⟨k, resp, h1, h2, h3, h4, h5, h6⟩ := ih (idx + 1) file h
      exact ⟨k, resp, h1, h2, h3, by omega, by omega, h6⟩
    | ok resp =>
      rw [hA] at h
      dsimp only at h ⊢
      by_cases hst : resp.status ≠ 200
      · rw [if_pos hst] at h ⊢
        obtain ⟨k, resp2, h1, h2, h3, h4, h5, h6⟩ := ih (idx + 1) file h
        exact ⟨k, resp2, h1, h2, h3, by omega, by omega, h6⟩
      · rw [if_neg hst] at h ⊢
        cases hm : resp.midStreamError with
        | true =>
          rw [hm] at h
          rw [if_pos (rfl : true = true)] at h ⊢
          dsimp only at h ⊢
          obtain ⟨k, resp2, h1, h2, h3, h4, h5, h6⟩ :=
            ih (idx + 1) (some resp.chunks.flatten) h
          exact ⟨k, resp2, h1, h2, h3, by omega, by omega, h6⟩
        | false =>
          rw [hm] at h
          rw [if_neg (by decide : ¬(false = true))] at h ⊢
          exact ⟨idx, resp, hA, by omega, hm, Nat.le_refl idx,
            by omega, rfl⟩

/-- **C5 (amended)**. With retries enabled, a retried attempt does
*not* resume from a persisted offset: every attempt that reaches the
body re-opens the file in truncating `'wb'` mode and re-requests the
full content, so every write in the log either sits at offset 0 or
directly extends another write of the *same* attempt (offsets restart
at 0 on every attempt); and when the retry loop succeeds, the final
file is exactly the full chunk sequence of the succeeding attempt —
bytes from failed attempts are discarded, never mixed. -/
theorem download_file_cli_retry_from_scratch
    (scns : Nat → Except Unit GetResp) (maxAttempts : Nat)
    (initFile : Option (List Nat)) :
    (∀ a o b,
      (a, o, b) ∈ (download_file_cli scns maxAttempts initFile).2.1 →
      o = 0 ∨ ∃ o2 b2,
        (a, o2, b2) ∈ (download_file_cli scns maxAttempts initFile).2.1 ∧
        o = o2 + b2.length) ∧
    ((download_file_cli scns maxAttempts initFile).2.2 = true →
      ∃ k resp, scns k = .ok resp ∧ resp.status = 200 ∧
        resp.midStreamError = false ∧ k < maxAttempts ∧
        (download_file_cli scns maxAttempts initFile).1 =
          some resp.chunks.flatten) := by
  constructor
  · intro a o b h
    exact retryLoop_writes scns maxAttempts 0 initFile a o b h
  · intro h
    obtain ⟨k, resp, h1, h2, h3, h4, h5, h6⟩ :=
      retryLoop_success scns maxAttempts 0 initFile h
    exact ⟨k, resp, h1, h2, h3, by omega, h6⟩

/-- Witness for C5 (amended) at the schedule `cxScns`. -/
theorem download_file_cli_retry_from_scratch_witness :
    ((1, 1, [8]) ∈ (download_file_cli cxScns 2 none).2.1) ∧
    ((1 : Nat) = 0 ∨ ∃ o2 b2,
      ((1 : Nat), o2, b2) ∈ (download_file_cli cxScns 2 none).2.1 ∧
      1 = o2 + b2.length) ∧
    (download_file_cli cxScns 2 none).2.2 = true ∧
    ∃ k resp, cxScns k = .ok resp ∧ resp.status = 200 ∧
      resp.midStreamError = false ∧ k < 2 ∧
      (download_file_cli cxScns 2 none).1 =
        some resp.chunks.flatten :=
  ⟨by decide,
   (download_file_cli_retry_from_scratch cxScns 2 none).1 1 1 [8]
     (by decide),
   rfl,
   (download_file_cli_retry_from_scratch cxScns 2 none).2 rfl⟩

/-! ## ConcurrencyGate: the `asyncio.Semaphore` bound (C1)

`async with semaphore` brackets the content transfer
(`src/gui/downloader.py` line 123, `src/download_files.py` line 108).
The semaphore is modelled operationally: a state holds the free-permit
count and the phase of every unit; a step is one unit terminating
before the gate (probe transport failure / already downloaded),
arriving at the gate, acquiring a permit — possible only when one is
free — and entering Fetching, or leaving Fetching and releasing its
permit (the `async with` releases on every exit path).  Any number of
units may sit in the pre-gate phases. -/

/-- Phase of one unit relative to the gate: before the gate (probing /
deciding), blocked in `semaphore.acquire`, inside the gated transfer,
or terminal. -/
inductive GPhase
  | preGate
  | waitGate
  | fetching
  | terminal
  deriving DecidableEq, Repr

/-- Global state: free permits of the semaphore plus all unit phases. -/
structure GState where
  permits : Nat
  units : List GPhase
  deriving DecidableEq, Repr

/-- All units spawned at once (the orchestrator creates every task up
front), semaphore initialized with `maxConcurrent = m` permits. -/
def initState (m n : Nat) : GState :=
  ⟨m, List.replicate n GPhase.preGate⟩

/-- One interleaving step of the system. -/
inductive GStep : GState → GState → Prop
  | skipGate (p : Nat) (l r : List GPhase) :
      GStep ⟨p, l ++ GPhase.preGate :: r⟩ ⟨p, l ++ GPhase.terminal :: r⟩
  | enqueue (p : Nat) (l r : List GPhase) :
      GStep ⟨p, l ++ GPhase.preGate :: r⟩ ⟨p, l ++ GPhase.waitGate :: r⟩
  | acquire (p : Nat) (l r : List GPhase) :
      GStep ⟨p + 1, l ++ GPhase.waitGate :: r⟩
        ⟨p, l ++ GPhase.fetching :: r⟩
  | release (p : Nat) (l r : List GPhase) :
      GStep ⟨p, l ++ GPhase.fetching :: r⟩
        ⟨p + 1, l ++ GPhase.terminal :: r⟩

/-- States reachable from the initial state. -/
inductive GReach (m n : Nat) : GState → Prop
  | init : GReach m n (initState m n)
  | step {s s2 : GState} : GReach m n s → GStep s s2 → GReach m n s2

/-- The semaphore invariant: free permits plus units inside Fetching
always equal `maxConcurrent`. -/
theorem gate_invariant (m n : Nat) :
    ∀ s, GReach m n s →
      s.permits + s.units.count GPhase.fetching = m := by
  intro s h
  induction h with
  | init => simp [initState, List.count_replicate]
  | step h12 hstep ih =>
    cases hstep with
    | skipGate p l r =>
      simp [List.count_append, List.count_cons] at ih ⊢
      omega
    | enqueue p l r =>
      simp [List.count_append, List.count_cons] at ih ⊢
      omega
    | acquire p l r =>
      simp [List.count_append, List.count_cons] at ih ⊢
      omega
    | release p l r =>
      simp [List.count_append, List.count_cons] at ih ⊢
      omega

/-- **C1**. For every `maxConcurrent = m ≥ 1` and every number `n` of
targets, every reachable state of the gated system has at most `m`
units inside Fetching (holding a gate permit); and the state with all
`n` units in the pre-gate probing phase is reachable, so probing or
queued units are not bounded by `m`. -/
theorem gate_bound (m n : Nat) (_hm : 1 ≤ m) (s : GState)
    (hreach : GReach m n s) :
    s.units.count GPhase.fetching ≤ m ∧
    GReach m n (initState m n) ∧
    (initState m n).units.count GPhase.preGate = n := by
  refine ⟨?_, GReach.init, ?_⟩
  · have hinv := gate_invariant m n s hreach
    omega
  · simp [initState]

/-- Witness for C1: with one permit and two targets, the state where
one unit fetches and the other still probes is reached by
enqueue-then-acquire, and its Fetching count is within the bound. -/
theorem gate_bound_witness :
    GReach 1 2 ⟨0, [GPhase.fetching, GPhase.preGate]⟩ ∧
    ((⟨0, [GPhase.fetching, GPhase.preGate]⟩ : GState).units.count
        GPhase.fetching ≤ 1 ∧
      GReach 1 2 (initState 1 2) ∧
      (initState 1 2).units.count GPhase.preGate = 2) := by
  have hr : GReach 1 2 ⟨0, [GPhase.fetching, GPhase.preGate]⟩ :=
    GReach.step
      (GReach.step GReach.init (GStep.enqueue 1 [] [GPhase.preGate]))
      (GStep.acquire 0 [] [GPhase.preGate])
  exact ⟨hr, gate_bound 1 2 (Nat.le_refl 1) _ hr⟩

end Downloader
